import Mathlib

/-!
Verification of the Gilded Rose inventory rule engine
(`src/gildedrose/{item.rs, mod.rs, quality_behavior.rs}`).

The whole rule engine is pure computation over `{sell_in, quality}` and a
behavior value, so it is embedded shallowly:

* `Threshold` and `QualityBehavior` mirror `quality_behavior.rs`.
* `clamp` mirrors Rust's `i32::clamp`, which `assert!`s `min <= max`;
  the assertion failure (a panic) is modelled as `none`.
* `computeNewQuality` / `updateState` mirror the default trait method
  `GenericItem::update_quality` in `item.rs`: the inner `Option Int` is the
  Rust `new_quality : Option<i32>` (`none` for the Constant variant), the
  outer `Option` records whether the computation panicked.
* `get_behavior` mirrors `Item::get_behavior` (name-based resolution by
  substring containment, in source order).
* `updateAll` mirrors `GildedRose::update_quality` (per-item update over the
  collection, propagating a panic).

Integer arithmetic is modelled on unbounded `Int`; `i32` overflow is out of
scope. The one panic site that exists at every build profile — the
`min <= max` assertion inside `i32::clamp` — is modelled faithfully.
-/

namespace GildedRose

/-- Mirrors `TimeSensitiveIncreaseQualityBehaviorThresholds` in
`quality_behavior.rs`. -/
structure Threshold where
  days_left : Int
  increase_rate : Int
deriving DecidableEq, Repr

/-- Mirrors the `QualityBehavior` enum in `quality_behavior.rs`. -/
inductive QualityBehavior where
  | Constant : QualityBehavior
  | Decrease (rate min_quality max_quality : Int) : QualityBehavior
  | Increase (rate min_quality max_quality : Int) : QualityBehavior
  | TimeSensitiveIncrease (min_quality max_quality : Int)
      (thresholds : List Threshold) (drop_quality_after : Int) : QualityBehavior
deriving DecidableEq, Repr

/-- Mirrors `QualityBehavior::decrease_default_quality` in `quality_behavior.rs`. -/
def decrease_default_quality (rate : Int) : QualityBehavior :=
  QualityBehavior.Decrease rate 0 50

/-- Mirrors `QualityBehavior::increase_default_quality` in `quality_behavior.rs`. -/
def increase_default_quality (rate : Int) : QualityBehavior :=
  QualityBehavior.Increase rate 0 50

/-- Mirrors `QualityBehavior::standard_decrease` in `quality_behavior.rs`. -/
def standard_decrease : QualityBehavior := decrease_default_quality 1

/-- Mirrors `QualityBehavior::standard_increase` in `quality_behavior.rs`. -/
def standard_increase : QualityBehavior := increase_default_quality 1

/-- Mirrors `QualityBehavior::conjured_items` in `quality_behavior.rs`. -/
def conjured_items : QualityBehavior := decrease_default_quality 2

/-- Mirrors `QualityBehavior::new_time_sensitive_default_quality` in
`quality_behavior.rs`. -/
def new_time_sensitive_default_quality (ts : List Threshold) : QualityBehavior :=
  QualityBehavior.TimeSensitiveIncrease 0 50 ts 0

/-- Mirrors `QualityBehavior::backstage_passes_items` in `quality_behavior.rs`. -/
def backstage_passes_items : QualityBehavior :=
  new_time_sensitive_default_quality [⟨10, 2⟩, ⟨5, 3⟩]

/-- The mutable state a `GenericItem` exposes through its accessors
(`get_sell_in`/`set_sell_in`, `get_quality`/`set_quality` in `item.rs`). -/
structure ItemState where
  sell_in : Int
  quality : Int
deriving DecidableEq, Repr

/-- Mirrors Rust's `i32::clamp(self, min, max)`: it `assert!`s `min <= max`
(panicking otherwise, modelled as `none`), then returns `min` if `self < min`,
`max` if `self > max`, and `self` otherwise. -/
def clamp (v lo hi : Int) : Option Int :=
  if lo ≤ hi then
    some (if v < lo then lo else if hi < v then hi else v)
  else none

/-- Minimum by `days_left` of `t :: ts`, the earliest minimal element winning
a tie (`t` is kept unless a later element is strictly smaller) — the tie
behavior of Rust's `Iterator::min_by_key`, which returns the first of several
equally minimal elements. -/
def minFrom (t : Threshold) : List Threshold → Threshold
  | [] => t
  | u :: us => if (minFrom u us).days_left < t.days_left then minFrom u us else t

/-- The minimum of a threshold list by `days_left`, first minimal element
winning a tie: mirrors `Iterator::min_by_key` in the `TimeSensitiveIncrease`
arm of `update_quality`. -/
def minByDaysLeft : List Threshold → Option Threshold
  | [] => none
  | t :: ts => some (minFrom t ts)

/-- The thresholds satisfied at a given `sell_in`: mirrors
`thresholds.iter().filter(|t| self.get_sell_in() <= t.days_left)`. -/
def qualifying (ts : List Threshold) (sell : Int) : List Threshold :=
  ts.filter (fun t => sell ≤ t.days_left)

/-- The tier increase chosen by the `TimeSensitiveIncrease` arm:
`filter ∘ min_by_key ∘ map_or(1, increase_rate)` from `item.rs`. -/
def tierIncrease (ts : List Threshold) (sell : Int) : Int :=
  match minByDaysLeft (qualifying ts sell) with
  | none => 1
  | some t => t.increase_rate

/-- The `match behavior` expression computing `new_quality` inside
`GenericItem::update_quality` (`item.rs` lines 28-58). The inner `Option Int`
is the Rust `new_quality : Option<i32>`; the outer `Option` is `none` exactly
when the Rust computation panics (inside `clamp`). -/
def computeNewQuality (b : QualityBehavior) (s : ItemState) : Option (Option Int) :=
  match b with
  | QualityBehavior.Decrease rate lo hi =>
    (clamp (s.quality - (if s.sell_in ≤ 0 then rate * 2 else rate)) lo hi).map some
  | QualityBehavior.Increase rate lo hi =>
    (clamp (s.quality + rate) lo hi).map some
  | QualityBehavior.TimeSensitiveIncrease lo hi ts drop =>
    if s.sell_in ≤ drop then some (some lo)
    else (clamp (s.quality + tierIncrease ts s.sell_in) lo hi).map some
  | QualityBehavior.Constant => some none

/-- Mirrors the default trait method `GenericItem::update_quality`
(`item.rs` lines 26-64): compute `new_quality`; if it is defined, write it
and decrement `sell_in` by one; a Constant behavior performs no mutation.
`none` means the Rust code panicked. -/
def updateState (b : QualityBehavior) (s : ItemState) : Option ItemState :=
  match computeNewQuality b s with
  | none => none
  | some none => some s
  | some (some q) => some { sell_in := s.sell_in - 1, quality := q }

/-- Character-list helper for Rust's `str::contains`: does the second list
start with the first? -/
def charsStartWith : List Char → List Char → Bool
  | [], _ => true
  | _ :: _, [] => false
  | p :: ps, c :: cs => p == c && charsStartWith ps cs

/-- Character-list helper for Rust's `str::contains`: does the second list
contain the first as a contiguous sublist? -/
def charsContain (pat : List Char) : List Char → Bool
  | [] => charsStartWith pat []
  | c :: cs => charsStartWith pat (c :: cs) || charsContain pat cs

/-- Mirrors Rust's `str::contains(pattern)` for string patterns. -/
def nameContains (name pat : String) : Bool :=
  charsContain pat.data name.data

/-- Mirrors `Item::get_behavior` in `item.rs`: behavior resolution from the
item's name by substring containment, guards tested in source order, first
match winning. -/
def get_behavior (name : String) : QualityBehavior :=
  if nameContains name ("Aged Brie") then standard_increase
  else if nameContains name ("Backstage passes to a TAFKAL80ETC concert") then
    backstage_passes_items
  else if nameContains name ("Sulfuras, Hand of Ragnaros") then
    QualityBehavior.Constant
  else if nameContains name ("Conjured") then conjured_items
  else decrease_default_quality 1

/-- Mirrors the `Item` struct in `item.rs` (classic shape: behavior is derived
from the name on every query). -/
structure Item where
  name : String
  sell_in : Int
  quality : Int
deriving DecidableEq, Repr

/-- `GenericItem::update_quality` specialised to the classic `Item` shape,
whose accessors read and write `sell_in` and `quality` directly and whose
`get_behavior` resolves from `name`. -/
def Item.update_quality (it : Item) : Option Item :=
  match updateState (get_behavior it.name) ⟨it.sell_in, it.quality⟩ with
  | none => none
  | some s => some { it with sell_in := s.sell_in, quality := s.quality }

/-- Mirrors `GildedRose::update_quality` in `mod.rs`: one tick applies
`update_quality` to every item of the collection; a panic in any item's
update aborts the batch. -/
def updateAll : List Item → Option (List Item)
  | [] => some []
  | it :: rest =>
    match Item.update_quality it, updateAll rest with
    | some it', some rest' => some (it' :: rest')
    | _, _ => none

/-- The bounds of a behavior are coherent: `min_quality ≤ max_quality` at the
variant's clamp site (`Constant` has no bounds). The spec calls this the
unchecked precondition of every behavior instance. -/
def boundsOk : QualityBehavior → Bool
  | QualityBehavior.Constant => true
  | QualityBehavior.Decrease _ lo hi => decide (lo ≤ hi)
  | QualityBehavior.Increase _ lo hi => decide (lo ≤ hi)
  | QualityBehavior.TimeSensitiveIncrease lo hi _ _ => decide (lo ≤ hi)

/-- Quality is within the behavior's `[min_quality, max_quality]` range
(vacuously true for `Constant`, which has no bounds). -/
def qualityInBounds (b : QualityBehavior) (q : Int) : Bool :=
  match b with
  | QualityBehavior.Constant => true
  | QualityBehavior.Decrease _ lo hi => decide (lo ≤ q) && decide (q ≤ hi)
  | QualityBehavior.Increase _ lo hi => decide (lo ≤ q) && decide (q ≤ hi)
  | QualityBehavior.TimeSensitiveIncrease lo hi _ _ => decide (lo ≤ q) && decide (q ≤ hi)

/-- `n` sequential applications of the update operation. -/
def updateIter (b : QualityBehavior) (s : ItemState) : Nat → Option ItemState
  | 0 => some s
  | n + 1 => (updateIter b s n).bind (updateState b)

/-- Spec-side characterisation of the tier increase of `TimeSensitiveIncrease`
(spec §4.2): the `increase_rate` of a qualifying threshold whose `days_left`
is smallest among all qualifying thresholds, or 1 when none qualifies. -/
def IsSpecIncrease (ts : List Threshold) (sell i : Int) : Prop :=
  (qualifying ts sell = [] ∧ i = 1) ∨
  (∃ t, t ∈ qualifying ts sell ∧ i = t.increase_rate ∧
    ∀ u ∈ qualifying ts sell, t.days_left ≤ u.days_left)

end GildedRose

namespace GildedRose

/-! ### Helper lemmas -/

theorem clamp_eq (v lo hi : Int) (h : lo ≤ hi) :
    clamp v lo hi = some (max (min v hi) lo) := by
  unfold clamp
  rw [if_pos h]
  congr 1
  rcases lt_or_le v lo with h1 | h1
  · rw [if_pos h1]
    omega
  · rw [if_neg (not_lt.mpr h1)]
    rcases lt_or_le hi v with h2 | h2
    · rw [if_pos h2]
      omega
    · rw [if_neg (not_lt.mpr h2)]
      omega

theorem clamp_mem (v lo hi x : Int) (h : clamp v lo hi = some x) :
    lo ≤ x ∧ x ≤ hi := by
  unfold clamp at h
  by_cases hlh : lo ≤ hi
  · rw [if_pos hlh] at h
    injection h with h
    subst h
    split
    · omega
    · split <;> omega
  · rw [if_neg hlh] at h
    exact absurd h (by simp)

theorem clamp_isSome (v lo hi : Int) (h : lo ≤ hi) : (clamp v lo hi).isSome = true := by
  rw [clamp_eq v lo hi h]
  rfl

theorem minFrom_mem (t : Threshold) (ts : List Threshold) :
    minFrom t ts ∈ t :: ts := by
  induction ts generalizing t with
  | nil => simp [minFrom]
  | cons u us ih =>
    unfold minFrom
    split
    · have := ih u
      rcases List.mem_cons.mp this with h | h
      · rw [h]; simp
      · simp [h]
    · simp

theorem minFrom_le (t : Threshold) (ts : List Threshold) :
    ∀ u ∈ t :: ts, (minFrom t ts).days_left ≤ u.days_left := by
  induction ts generalizing t with
  | nil =>
    intro u hu
    rw [List.mem_singleton] at hu
    subst hu
    exact le_refl _
  | cons v vs ih =>
    intro u hu
    unfold minFrom
    split <;> rename_i hcmp
    · rcases List.mem_cons.mp hu with h | h
      · subst h; exact le_of_lt hcmp
      · exact ih v u h
    · rcases List.mem_cons.mp hu with h | h
      · subst h; exact le_refl _
      · exact le_trans (not_lt.mp hcmp) (ih v u h)

theorem minFrom_head (t : Threshold) (ts : List Threshold)
    (h : ∀ u ∈ ts, t.days_left ≤ u.days_left) : minFrom t ts = t := by
  cases ts with
  | nil => rfl
  | cons u us =>
    unfold minFrom
    have hmem := minFrom_mem u us
    rw [if_neg (not_lt.mpr (h _ hmem))]

theorem minFrom_skip (a t : Threshold) (l₂ : List Threshold) :
    ∀ l₁ : List Threshold,
    (t.days_left < a.days_left) →
    (∀ u ∈ l₁, t.days_left < u.days_left) →
    (∀ u ∈ l₂, t.days_left ≤ u.days_left) →
    minFrom a (l₁ ++ t :: l₂) = t := by
  intro l₁
  induction l₁ generalizing a with
  | nil =>
    intro ha _ h₂
    show minFrom a (t :: l₂) = t
    unfold minFrom
    rw [minFrom_head t l₂ h₂]
    rw [if_pos ha]
  | cons b bs ih =>
    intro ha h₁ h₂
    show minFrom a (b :: (bs ++ t :: l₂)) = t
    unfold minFrom
    rw [ih b (h₁ b (List.mem_cons_self b bs))
      (fun u hu => h₁ u (List.mem_cons_of_mem b hu)) h₂]
    rw [if_pos ha]

theorem minByDaysLeft_eq_none (l : List Threshold)
    (h : minByDaysLeft l = none) : l = [] := by
  cases l with
  | nil => rfl
  | cons t ts => exact absurd h (by simp [minByDaysLeft])

theorem minByDaysLeft_mem (l : List Threshold) (t : Threshold)
    (h : minByDaysLeft l = some t) : t ∈ l := by
  cases l with
  | nil => exact absurd h (by simp [minByDaysLeft])
  | cons a as =>
    unfold minByDaysLeft at h
    injection h with h
    subst h
    exact minFrom_mem a as

theorem minByDaysLeft_le (l : List Threshold) (t : Threshold)
    (h : minByDaysLeft l = some t) :
    ∀ u ∈ l, t.days_left ≤ u.days_left := by
  cases l with
  | nil => exact absurd h (by simp [minByDaysLeft])
  | cons a as =>
    unfold minByDaysLeft at h
    injection h with h
    subst h
    exact minFrom_le a as

theorem minByDaysLeft_first (t : Threshold) (l₁ l₂ : List Threshold)
    (h₁ : ∀ u ∈ l₁, t.days_left < u.days_left)
    (h₂ : ∀ u ∈ l₂, t.days_left ≤ u.days_left) :
    minByDaysLeft (l₁ ++ t :: l₂) = some t := by
  cases l₁ with
  | nil =>
    show minByDaysLeft (t :: l₂) = some t
    simp only [minByDaysLeft]
    rw [minFrom_head t l₂ h₂]
  | cons a as =>
    show minByDaysLeft (a :: (as ++ t :: l₂)) = some t
    simp only [minByDaysLeft]
    rw [minFrom_skip a t l₂ as (h₁ a (List.mem_cons_self a as))
      (fun u hu => h₁ u (List.mem_cons_of_mem a hu)) h₂]

theorem tierIncrease_isSpec (ts : List Threshold) (sell : Int) :
    IsSpecIncrease ts sell (tierIncrease ts sell) := by
  unfold tierIncrease
  cases hm : minByDaysLeft (qualifying ts sell) with
  | none => exact Or.inl ⟨minByDaysLeft_eq_none _ hm, rfl⟩
  | some t =>
    exact Or.inr ⟨t, minByDaysLeft_mem _ t hm, rfl, minByDaysLeft_le _ t hm⟩

theorem computeNewQuality_eq_some_none (b : QualityBehavior) (s : ItemState)
    (h : computeNewQuality b s = some none) : b = QualityBehavior.Constant := by
  cases b with
  | Constant => rfl
  | Decrease rate lo hi =>
    exfalso
    cases hc : clamp (s.quality - (if s.sell_in ≤ 0 then rate * 2 else rate)) lo hi with
    | none => simp [computeNewQuality, hc] at h
    | some x => simp [computeNewQuality, hc] at h
  | Increase rate lo hi =>
    exfalso
    cases hc : clamp (s.quality + rate) lo hi with
    | none => simp [computeNewQuality, hc] at h
    | some x => simp [computeNewQuality, hc] at h
  | TimeSensitiveIncrease lo hi ts drop =>
    exfalso
    by_cases hd : s.sell_in ≤ drop
    · simp [computeNewQuality, hd] at h
    · cases hc : clamp (s.quality + tierIncrease ts s.sell_in) lo hi with
      | none => simp [computeNewQuality, hd, hc] at h
      | some x => simp [computeNewQuality, hd, hc] at h

end GildedRose

namespace GildedRose

/-! ### Shared step lemmas about `updateState` -/

theorem updateState_isSome (b : QualityBehavior) (s : ItemState)
    (h : boundsOk b = true) : (updateState b s).isSome = true := by
  cases b with
  | Constant => rfl
  | Decrease rate lo hi =>
    have hlh : lo ≤ hi := by simpa [boundsOk] using h
    simp [updateState, computeNewQuality, clamp_eq, hlh]
  | Increase rate lo hi =>
    have hlh : lo ≤ hi := by simpa [boundsOk] using h
    simp [updateState, computeNewQuality, clamp_eq, hlh]
  | TimeSensitiveIncrease lo hi ts drop =>
    have hlh : lo ≤ hi := by simpa [boundsOk] using h
    by_cases hd : s.sell_in ≤ drop <;>
      simp [updateState, computeNewQuality, hd, clamp_eq, hlh]

theorem updateState_quality_mem (b : QualityBehavior) (s s' : ItemState)
    (hb : boundsOk b = true) (h : updateState b s = some s') :
    qualityInBounds b s'.quality = true := by
  cases b with
  | Constant => rfl
  | Decrease rate lo hi =>
    cases hc : clamp (s.quality - (if s.sell_in ≤ 0 then rate * 2 else rate)) lo hi with
    | none => simp [updateState, computeNewQuality, hc] at h
    | some x =>
      simp [updateState, computeNewQuality, hc] at h
      have hx := clamp_mem _ _ _ _ hc
      simp [qualityInBounds, ← h]
      omega
  | Increase rate lo hi =>
    cases hc : clamp (s.quality + rate) lo hi with
    | none => simp [updateState, computeNewQuality, hc] at h
    | some x =>
      simp [updateState, computeNewQuality, hc] at h
      have hx := clamp_mem _ _ _ _ hc
      simp [qualityInBounds, ← h]
      omega
  | TimeSensitiveIncrease lo hi ts drop =>
    have hlh : lo ≤ hi := by simpa [boundsOk] using hb
    by_cases hd : s.sell_in ≤ drop
    · simp [updateState, computeNewQuality, hd] at h
      simp [qualityInBounds, ← h]
      omega
    · cases hc : clamp (s.quality + tierIncrease ts s.sell_in) lo hi with
      | none => simp [updateState, computeNewQuality, hd, hc] at h
      | some x =>
        simp [updateState, computeNewQuality, hd, hc] at h
        have hx := clamp_mem _ _ _ _ hc
        simp [qualityInBounds, ← h]
        omega

/-! ### Claim theorems -/

/-- C1 (amended): for every item state and every behavior whose clamp bounds
satisfy `min_quality ≤ max_quality`, `update_quality` never panics — the
update is defined — and the resulting quality is within the behavior's range.
(As originally stated, with `min_quality > max_quality` allowed, the claim is
false: Rust's `i32::clamp` asserts `min <= max`, see the counterexample.) -/
theorem update_total_of_boundsOk (b : QualityBehavior) (s : ItemState)
    (h : boundsOk b = true) :
    ∃ s', updateState b s = some s' ∧ qualityInBounds b s'.quality = true := by
  obtain ⟨s', hs⟩ := Option.isSome_iff_exists.mp (updateState_isSome b s h)
  exact ⟨s', hs, updateState_quality_mem b s s' h hs⟩

/-- C1 witness: a concrete in-bounds behavior, evaluated. -/
theorem update_total_witness :
    boundsOk (QualityBehavior.Increase 3 0 50) = true ∧
    ∃ s', updateState (QualityBehavior.Increase 3 0 50) ⟨7, 49⟩ = some s' ∧
      qualityInBounds (QualityBehavior.Increase 3 0 50) s'.quality = true :=
  ⟨by decide, update_total_of_boundsOk _ _ (by decide)⟩

/-- C1 counterexample: a behavior constructed with `min_quality > max_quality`
makes `update_quality` hit the `min <= max` assertion inside `i32::clamp` — the
update panics (`none`), so the claim "no panic is reachable for any behavior
instance, including one constructed with min_quality > max_quality" is false. -/
theorem update_min_gt_max_cex :
    updateState (QualityBehavior.Decrease 1 1 0) ⟨5, 10⟩ = none := by decide

/-- C2 (amended): for every behavior with coherent bounds, every start state
and every `n ≥ 1`, the quality after `n` sequential updates is within the
behavior's `[min_quality, max_quality]`. (As originally stated the claim also
covered the observation point before the first update, where the constructed
quality is unconstrained — see the counterexample.) -/
theorem quality_in_bounds_after_ticks (b : QualityBehavior) (s s' : ItemState)
    (n : Nat) (hb : boundsOk b = true) (hn : 1 ≤ n)
    (h : updateIter b s n = some s') :
    qualityInBounds b s'.quality = true := by
  cases n with
  | zero => exact absurd hn (by simp)
  | succ m =>
    unfold updateIter at h
    cases h0 : updateIter b s m with
    | none => rw [h0] at h; exact absurd h (by simp)
    | some s0 =>
      rw [h0] at h
      simp only [Option.some_bind] at h
      exact updateState_quality_mem b s0 s' hb h

/-- C2 witness: one tick pulls an out-of-range quality into range. -/
theorem quality_in_bounds_witness :
    boundsOk (QualityBehavior.Decrease 1 0 50) = true ∧ 1 ≤ 1 ∧
    updateIter (QualityBehavior.Decrease 1 0 50) ⟨5, 100⟩ 1 = some ⟨4, 50⟩ ∧
    qualityInBounds (QualityBehavior.Decrease 1 0 50)
      ((⟨4, 50⟩ : ItemState).quality) = true :=
  ⟨by decide, by decide, by decide,
    quality_in_bounds_after_ticks _ ⟨5, 100⟩ ⟨4, 50⟩ 1 (by decide) (by decide) (by decide)⟩

/-- C2 counterexample: a classic item created as `("foo", 5, 100)` is outside
the `[0, 50]` range of its resolved behavior at the observation point before
the first update — the code validates nothing at construction. -/
theorem initial_quality_out_of_bounds_cex :
    qualityInBounds (get_behavior ("foo")) (Item.mk ("foo") 5 100).quality = false := by
  decide

/-- C3: for a `TimeSensitiveIncrease{min, max, thresholds, drop_after}`
behavior with coherent bounds, if `sell_in ≤ drop_after` one update hard-resets
quality to exactly `min_quality` (no clamp of a delta) and decrements
`sell_in`; otherwise it adds the `increase_rate` of a qualifying threshold of
smallest `days_left` (default 1 when none qualifies) and clamps. -/
theorem tsi_update_spec (lo hi : Int) (ts : List Threshold) (drop sell q : Int)
    (h : lo ≤ hi) :
    (sell ≤ drop →
      updateState (QualityBehavior.TimeSensitiveIncrease lo hi ts drop) ⟨sell, q⟩ =
        some ⟨sell - 1, lo⟩) ∧
    (¬ sell ≤ drop →
      ∃ i, IsSpecIncrease ts sell i ∧
        updateState (QualityBehavior.TimeSensitiveIncrease lo hi ts drop) ⟨sell, q⟩ =
          some ⟨sell - 1, max (min (q + i) hi) lo⟩) := by
  constructor
  · intro hd
    simp [updateState, computeNewQuality, hd]
  · intro hd
    refine ⟨tierIncrease ts sell, tierIncrease_isSpec ts sell, ?_⟩
    simp [updateState, computeNewQuality, hd, clamp_eq, h]

/-- C3 witness: the backstage-pass thresholds at `sell_in = 10`. -/
theorem tsi_update_spec_witness :
    ((0 : Int) ≤ 50) ∧
    (((10 : Int) ≤ 0 →
      updateState (QualityBehavior.TimeSensitiveIncrease 0 50 [⟨10, 2⟩, ⟨5, 3⟩] 0)
          ⟨10, 20⟩ = some ⟨10 - 1, 0⟩) ∧
    (¬ (10 : Int) ≤ 0 →
      ∃ i, IsSpecIncrease [⟨10, 2⟩, ⟨5, 3⟩] 10 i ∧
        updateState (QualityBehavior.TimeSensitiveIncrease 0 50 [⟨10, 2⟩, ⟨5, 3⟩] 0)
            ⟨10, 20⟩ = some ⟨10 - 1, max (min (20 + i) 50) 0⟩)) :=
  ⟨by decide, tsi_update_spec 0 50 [⟨10, 2⟩, ⟨5, 3⟩] 0 10 20 (by decide)⟩

/-- C4: for a `Decrease{rate, min, max}` behavior with coherent bounds, one
update sets quality to `clamp(quality - effective_rate, min, max)` with
`effective_rate = rate * 2` when the pre-update `sell_in ≤ 0` and `rate`
otherwise, and decrements `sell_in` by one. -/
theorem decrease_update_spec (rate lo hi sell q : Int) (h : lo ≤ hi) :
    updateState (QualityBehavior.Decrease rate lo hi) ⟨sell, q⟩ =
      some ⟨sell - 1, max (min (q - (if sell ≤ 0 then rate * 2 else rate)) hi) lo⟩ := by
  simp [updateState, computeNewQuality, clamp_eq, h]

/-- C4 witness: the spec's doubling example, `Decrease{1,0,50}`, `sell_in = 0`,
`quality = 10` gives quality 8 and `sell_in = -1`. -/
theorem decrease_update_spec_witness :
    ((0 : Int) ≤ 50) ∧
    updateState (QualityBehavior.Decrease 1 0 50) ⟨0, 10⟩ = some ⟨-1, 8⟩ :=
  ⟨by decide, by rw [decrease_update_spec 1 0 50 0 10 (by decide)]; decide⟩

/-- C5: for every non-Constant behavior, a successful update writes the
computed (already clamped) new quality and decrements `sell_in` by exactly
one, the new quality being computed from the pre-decrement state. -/
theorem nonconstant_update_shape (b : QualityBehavior) (s s' : ItemState)
    (hb : b ≠ QualityBehavior.Constant) (h : updateState b s = some s') :
    s'.sell_in = s.sell_in - 1 ∧ computeNewQuality b s = some (some s'.quality) := by
  unfold updateState at h
  cases hq : computeNewQuality b s with
  | none => rw [hq] at h; exact absurd h (by simp)
  | some o =>
    cases o with
    | none => exact absurd (computeNewQuality_eq_some_none b s hq) hb
    | some q =>
      rw [hq] at h
      have h' : some (⟨s.sell_in - 1, q⟩ : ItemState) = some s' := h
      injection h' with h'
      subst h'
      exact ⟨rfl, rfl⟩


/-- C5 witness: the Decrease doubling example again, checked against the
shape contract. -/
theorem nonconstant_update_shape_witness :
    (QualityBehavior.Decrease 1 0 50 ≠ QualityBehavior.Constant) ∧
    updateState (QualityBehavior.Decrease 1 0 50) ⟨0, 10⟩ = some ⟨-1, 8⟩ ∧
    ((⟨-1, 8⟩ : ItemState).sell_in = (⟨0, 10⟩ : ItemState).sell_in - 1 ∧
      computeNewQuality (QualityBehavior.Decrease 1 0 50) ⟨0, 10⟩ =
        some (some (⟨-1, 8⟩ : ItemState).quality)) :=
  ⟨by decide, by decide,
    nonconstant_update_shape (QualityBehavior.Decrease 1 0 50) ⟨0, 10⟩ ⟨-1, 8⟩
      (by decide) (by decide)⟩

/-- C6: one update on a Constant-behaved item changes nothing at all: neither
quality nor `sell_in` is mutated, for every state. -/
theorem constant_update_id : ∀ s : ItemState,
    updateState QualityBehavior.Constant s = some s :=
  fun _ => rfl

/-- C7: behavior resolution for the classic item shape is a pure function of
the name, tested by substring containment in the fixed source priority order,
first match winning, with exactly the legacy parameters. -/
theorem get_behavior_resolution : ∀ name : String,
    get_behavior name =
      (if nameContains name ("Aged Brie") then QualityBehavior.Increase 1 0 50
      else if nameContains name ("Backstage passes to a TAFKAL80ETC concert") then
        QualityBehavior.TimeSensitiveIncrease 0 50 [⟨10, 2⟩, ⟨5, 3⟩] 0
      else if nameContains name ("Sulfuras, Hand of Ragnaros") then
        QualityBehavior.Constant
      else if nameContains name ("Conjured") then QualityBehavior.Decrease 2 0 50
      else QualityBehavior.Decrease 1 0 50) :=
  fun _ => rfl

/-- C8: for an `Increase{rate, min, max}` behavior with coherent bounds, one
update sets quality to `clamp(quality + rate, min, max)` and decrements
`sell_in` by one. -/
theorem increase_update_spec (rate lo hi sell q : Int) (h : lo ≤ hi) :
    updateState (QualityBehavior.Increase rate lo hi) ⟨sell, q⟩ =
      some ⟨sell - 1, max (min (q + rate) hi) lo⟩ := by
  simp [updateState, computeNewQuality, clamp_eq, h]

/-- C8 witness: the spec's cap example, `Increase{1,0,50}`, `sell_in = 10`,
`quality = 50` stays capped at 50 with `sell_in = 9`. -/
theorem increase_update_spec_witness :
    ((0 : Int) ≤ 50) ∧
    updateState (QualityBehavior.Increase 1 0 50) ⟨10, 50⟩ = some ⟨9, 50⟩ :=
  ⟨by decide, by rw [increase_update_spec 1 0 50 10 50 (by decide)]; decide⟩

end GildedRose

namespace GildedRose

/-- The batch of five classic catalog items of the end-to-end scenario
(`test_gilded_rose_batch_update` in `mod.rs`). -/
def classicItems : List Item :=
  [⟨"Normal Item", 10, 20⟩,
   ⟨"Aged Brie", 5, 30⟩,
   ⟨"Backstage passes to a TAFKAL80ETC concert", 15, 25⟩,
   ⟨"Sulfuras, Hand of Ragnaros", 0, 80⟩,
   ⟨"Conjured", 3, 15⟩]

/-- C9: one batch tick on the five-item classic collection yields exactly
`(quality, sell_in) = (19,9), (31,4), (26,14), (80,0), (13,2)`. -/
theorem batch_tick_scenario :
    updateAll classicItems =
      some [⟨"Normal Item", 9, 19⟩,
            ⟨"Aged Brie", 4, 31⟩,
            ⟨"Backstage passes to a TAFKAL80ETC concert", 14, 26⟩,
            ⟨"Sulfuras, Hand of Ragnaros", 0, 80⟩,
            ⟨"Conjured", 2, 13⟩] := by
  decide

/-- C10: in the non-reset branch of `TimeSensitiveIncrease`, when the
qualifying thresholds decompose as `l₁ ++ t :: l₂` with every threshold of
`l₁` strictly larger in `days_left` than `t` and every threshold of `l₂` no
smaller — that is, `t` is the first qualifying threshold of minimal
`days_left`, ties included — the applied increase is `t.increase_rate`:
Rust's `min_by_key` keeps the earliest of equally minimal elements. -/
theorem tsi_tie_break_first (lo hi drop sell q : Int)
    (ts l₁ l₂ : List Threshold) (t : Threshold)
    (h : lo ≤ hi) (hd : ¬ sell ≤ drop)
    (hq : qualifying ts sell = l₁ ++ t :: l₂)
    (hbefore : ∀ u ∈ l₁, t.days_left < u.days_left)
    (hafter : ∀ u ∈ l₂, t.days_left ≤ u.days_left) :
    updateState (QualityBehavior.TimeSensitiveIncrease lo hi ts drop) ⟨sell, q⟩ =
      some ⟨sell - 1, max (min (q + t.increase_rate) hi) lo⟩ := by
  have hti : tierIncrease ts sell = t.increase_rate := by
    unfold tierIncrease
    rw [hq, minByDaysLeft_first t l₁ l₂ hbefore hafter]
  simp [updateState, computeNewQuality, hd, hti, clamp_eq, h]

/-- C10 witness: two qualifying thresholds tied at `days_left = 10` with
different rates; the first one's rate (+2, not +7) is applied. -/
theorem tsi_tie_break_first_witness :
    ((0 : Int) ≤ 50) ∧ (¬ (9 : Int) ≤ 0) ∧
    qualifying [⟨10, 2⟩, ⟨10, 7⟩] 9 =
      [] ++ (⟨10, 2⟩ : Threshold) :: [⟨10, 7⟩] ∧
    (∀ u ∈ ([] : List Threshold), (⟨10, 2⟩ : Threshold).days_left < u.days_left) ∧
    (∀ u ∈ [(⟨10, 7⟩ : Threshold)], (⟨10, 2⟩ : Threshold).days_left ≤ u.days_left) ∧
    updateState (QualityBehavior.TimeSensitiveIncrease 0 50 [⟨10, 2⟩, ⟨10, 7⟩] 0)
        ⟨9, 20⟩ =
      some ⟨9 - 1, max (min (20 + (⟨10, 2⟩ : Threshold).increase_rate) 50) 0⟩ :=
  ⟨by decide, by decide, by decide, by decide, by decide,
    tsi_tie_break_first 0 50 0 9 20 [⟨10, 2⟩, ⟨10, 7⟩] [] [⟨10, 7⟩] ⟨10, 2⟩
      (by decide) (by decide) (by decide) (by decide) (by decide)⟩

end GildedRose
